import Mathlib

/-!
# Verification of matchms filtering core

Shallow embedding of the matchms filtering code: the precursor-m/z ↔
parent-mass derivation functions, the annotation-consistency filter
`require_annotation`, and the `SpectrumProcessor` / `ProcessingReport`
pipeline engine.  Python floats are read over the rationals; `None` is
`Option.none`; external collaborators (adduct canonicalizer, adduct
table, structural predicates and conversions for SMILES/InChI/InChIKey)
are parameters gathered in an environment record.
-/

namespace Matchms

/-- A spectrum record, restricted to the metadata fields read by the
filters under verification.  Each field mirrors `spectrum.get(key)`:
`none` models a missing key. -/
structure Spectrum where
  precursor_mz : Option ℚ
  parent_mass : Option ℚ
  charge : Option Int
  ionmode : Option String
  adduct : Option String
  smiles : Option String
  inchi : Option String
  inchikey : Option String
deriving Repr, DecidableEq

/-- One row of the known-adduct table: `(adduct, mass_multiplier,
correction_mass)`, as loaded by `load_known_adducts`. -/
structure AdductEntry where
  adduct : String
  mass_multiplier : ℚ
  correction_mass : ℚ
deriving Repr, DecidableEq

/-- External collaborators of the filtering core (spec §6): the adduct
canonicalizer `_clean_adduct`, the known-adduct table, the unknown-adduct
interpreter `get_multiplier_and_mass_from_adduct`, and the structural
validity predicates and conversions for SMILES/InChI/InChIKey. -/
structure ChemEnv where
  cleanAdduct : Option String → Option String
  knownAdducts : List AdductEntry
  get_multiplier_and_mass_from_adduct : String → Option ℚ × Option ℚ
  is_valid_smiles : String → Bool
  is_valid_inchi : String → Bool
  is_valid_inchikey : String → Bool
  convert_smiles_to_inchi : String → String
  convert_inchi_to_inchikey : String → String

/-- Modelled from the spec: the constant `PROTON_MASS` from
`matchms.constants` (module not included in the sources); the derivation
formulas only use it symbolically. -/
def PROTON_MASS : ℚ := 1.00727645199076

/-- Embedding of `_get_multiplier_and_correction_mass_from_adduct`:
canonicalize the adduct, look it up in the known-adduct table, and on a
miss fall back to `get_multiplier_and_mass_from_adduct` — called, as in
the source, on the literal string `"adduct"`. -/
def _get_multiplier_and_correction_mass_from_adduct (env : ChemEnv)
    (adduct : Option String) : Option ℚ × Option ℚ :=
  match env.cleanAdduct adduct with
  | some a =>
    match env.knownAdducts.find? (fun e => e.adduct == a) with
    | some e => (some e.mass_multiplier, some e.correction_mass)
    | none => env.get_multiplier_and_mass_from_adduct "adduct"
  | none => env.get_multiplier_and_mass_from_adduct "adduct"

/-- Embedding of `_is_valid_charge`: the charge is present and nonzero. -/
def _is_valid_charge (charge : Option Int) : Bool :=
  match charge with
  | none => false
  | some c => c != 0

/-- Embedding of `_get_charge`: the explicit charge field if valid, else
±1 inferred from the ionmode, else 0. -/
def _get_charge (s : Spectrum) : Int :=
  if _is_valid_charge s.charge then s.charge.getD 0
  else if s.ionmode = some "positive" then 1
  else if s.ionmode = some "negative" then -1
  else 0

/-- Embedding of `derive_parent_mass_from_precursor_mz`. -/
def derive_parent_mass_from_precursor_mz (env : ChemEnv)
    (spectrum : Option Spectrum) (estimate_from_adduct : Bool) : Option ℚ :=
  match spectrum with
  | none => none
  | some s =>
    match s.precursor_mz with
    | none => none
    | some precursor_mz =>
      let charge := _get_charge s
      let adductPath : Option ℚ :=
        if estimate_from_adduct then
          match _get_multiplier_and_correction_mass_from_adduct env s.adduct with
          | (some multiplier, some correction_mass) =>
            some ((precursor_mz - correction_mass) / multiplier)
          | _ => none
        else none
      match adductPath with
      | some parent_mass => some parent_mass
      | none =>
        if _is_valid_charge (some charge) then
          some (precursor_mz * |(charge : ℚ)| - PROTON_MASS * (charge : ℚ))
        else none

/-- Embedding of `derive_precursor_mz_from_parent_mass` (the source
hard-codes `estimate_from_adduct = True`). -/
def derive_precursor_mz_from_parent_mass (env : ChemEnv)
    (spectrum : Option Spectrum) : Option ℚ :=
  match spectrum with
  | none => none
  | some s =>
    match s.parent_mass with
    | none => none
    | some parent_mass =>
      let adductPath : Option ℚ :=
        match _get_multiplier_and_correction_mass_from_adduct env s.adduct with
        | (some multiplier, some correction_mass) =>
          some (parent_mass * multiplier + correction_mass)
        | _ => none
      match adductPath with
      | some precursor_mz => some precursor_mz
      | none =>
        let charge := _get_charge s
        if _is_valid_charge (some charge) then
          some ((parent_mass + PROTON_MASS * (charge : ℚ)) / |(charge : ℚ)|)
        else none

/-- Store a derived parent mass back on the spectrum (as the
`add_parent_mass` filter does), leaving every other field unchanged. -/
def setParentMass (s : Spectrum) (pm : ℚ) : Spectrum :=
  { s with parent_mass := some pm }

/-- Lift a structural validity predicate over a possibly missing
metadata value: a missing identifier is never valid (the matchms
predicates reject non-string inputs). -/
def validOpt (p : String → Bool) : Option String → Bool
  | none => false
  | some s => p s

/-- Check 1 of `require_annotation`: the smiles field is structurally
valid. -/
def smilesValid (env : ChemEnv) (s : Spectrum) : Bool :=
  validOpt env.is_valid_smiles s.smiles

/-- Check 2 of `require_annotation`: the inchikey field is structurally
valid. -/
def inchikeyValid (env : ChemEnv) (s : Spectrum) : Bool :=
  validOpt env.is_valid_inchikey s.inchikey

/-- Check 3 of `require_annotation`: the inchi field is structurally
valid. -/
def inchiValid (env : ChemEnv) (s : Spectrum) : Bool :=
  validOpt env.is_valid_inchi s.inchi

/-- Check 4 of `require_annotation`: the first 14 characters of the
inchikey agree with the InChIKey re-derived from the inchi. -/
def inchikeyMatchesInchi (env : ChemEnv) (s : Spectrum) : Bool :=
  (s.inchikey.getD "").take 14
    == (env.convert_inchi_to_inchikey (s.inchi.getD "")).take 14

/-- Check 5 of `require_annotation`: the first 14 characters of the
inchikey agree with the InChIKey derived from the smiles via
smiles → inchi → inchikey. -/
def inchikeyMatchesSmiles (env : ChemEnv) (s : Spectrum) : Bool :=
  (s.inchikey.getD "").take 14
    == (env.convert_inchi_to_inchikey
          (env.convert_smiles_to_inchi (s.smiles.getD ""))).take 14

/-- Embedding of `require_annotation`: remove (return `none` for) any
spectrum whose smiles, inchi and inchikey are not each valid and
mutually consistent on the 14-character InChIKey prefix.  `clone` is the
identity under value semantics, so the retained spectrum is returned
as-is. -/
def require_annotation (env : ChemEnv) (spectrum_in : Option Spectrum) :
    Option Spectrum :=
  match spectrum_in with
  | none => none
  | some spectrum =>
    let smiles := spectrum.smiles
    let inchi := spectrum.inchi
    let inchikey := spectrum.inchikey
    if !(validOpt env.is_valid_smiles smiles) then none
    else if !(validOpt env.is_valid_inchikey inchikey) then none
    else if !(validOpt env.is_valid_inchi inchi) then none
    else if !((inchikey.getD "").take 14
        == (env.convert_inchi_to_inchikey (inchi.getD "")).take 14) then none
    else if !((inchikey.getD "").take 14
        == (env.convert_inchi_to_inchikey
              (env.convert_smiles_to_inchi (smiles.getD ""))).take 14) then none
    else some spectrum

/-- Modelled from the spec: a bound filter callable of the pipeline
(`SpectrumProcessor` itself is not among the provided sources, only its
tests are; §4.2 of the spec describes it). -/
structure BoundFilter where
  name : String
  fn : Spectrum → Option Spectrum

/-- Modelled from the spec: a catalog-registered ("known") filter
binding, carrying the canonical ordinal that fixes its execution
position (spec §4.1). -/
structure KnownFilter where
  name : String
  ordinal : Nat
  fn : Spectrum → Option Spectrum

/-- Modelled from the spec: the `SpectrumProcessor` state — an ordered
list of known-filter bindings (kept sorted by catalog ordinal) plus a
separate append-only sequence of custom filter bindings (spec §4.2). -/
structure SpectrumProcessor where
  knownFilters : List KnownFilter
  customFilters : List BoundFilter

/-- Modelled from the spec: insert a known filter into the
ordinal-sorted list, keeping the sort order. -/
def insertByOrdinal (f : KnownFilter) : List KnownFilter → List KnownFilter
  | [] => [f]
  | g :: gs =>
    if f.ordinal ≤ g.ordinal then f :: g :: gs else g :: insertByOrdinal f gs

/-- Modelled from the spec: `add_filter` for a known (catalog) filter —
inserted at its ordinal position, a duplicate by name collapsing to the
later-added parameterization (spec §4.2). -/
def add_known_filter (p : SpectrumProcessor) (f : KnownFilter) :
    SpectrumProcessor :=
  { p with knownFilters :=
      insertByOrdinal f (p.knownFilters.filter (fun g => g.name != f.name)) }

/-- Modelled from the spec: `add_custom_filter` — appends to the custom
sequence, always executed after every known filter, in the order added
(spec §4.2). -/
def add_custom_filter (p : SpectrumProcessor) (f : BoundFilter) :
    SpectrumProcessor :=
  { p with customFilters := p.customFilters ++ [f] }

/-- Modelled from the spec: the `filters` attribute — the actual
execution order: all known filters in ordinal order, followed by all
custom filters in addition order (spec §4.2). -/
def SpectrumProcessor.filters (p : SpectrumProcessor) : List BoundFilter :=
  p.knownFilters.map (fun f => BoundFilter.mk f.name f.fn) ++ p.customFilters

/-- One pipeline-construction action: adding a known filter or adding a
custom filter, in caller order. -/
inductive AddAction where
  | known : KnownFilter → AddAction
  | custom : BoundFilter → AddAction

/-- Apply one construction action to the processor state. -/
def applyAction (p : SpectrumProcessor) : AddAction → SpectrumProcessor
  | AddAction.known f => add_known_filter p f
  | AddAction.custom f => add_custom_filter p f

/-- Apply a sequence of construction actions, left to right. -/
def applyActions (p : SpectrumProcessor) (acts : List AddAction) :
    SpectrumProcessor :=
  acts.foldl applyAction p

/-- The custom filters among a sequence of construction actions, in
order. -/
def customsOf (acts : List AddAction) : List BoundFilter :=
  acts.filterMap (fun a =>
    match a with
    | AddAction.custom f => some f
    | AddAction.known _ => none)

/-- Modelled from the spec: the configuration error raised by
`process_spectrum` on an empty pipeline (spec §4.2 / §7; the tests
expect the message "No filters to process"). -/
inductive PipelineError where
  | noFiltersConfigured : PipelineError
deriving Repr, DecidableEq

/-- Sequentially apply bound filters, short-circuiting to `none` as soon
as one filter discards the spectrum. -/
def apply_filters : List BoundFilter → Spectrum → Option Spectrum
  | [], s => some s
  | f :: fs, s =>
    match f.fn s with
    | none => none
    | some s2 => apply_filters fs s2

/-- Modelled from the spec: `process_spectrum` — fails with a
configuration error if the filter list is empty, else runs the chain
(spec §4.2). -/
def process_spectrum (p : SpectrumProcessor) (s : Spectrum) :
    Except PipelineError (Option Spectrum) :=
  if p.filters.isEmpty then Except.error PipelineError.noFiltersConfigured
  else Except.ok (apply_filters p.filters s)

/-- A metadata mapping, as an association list of string keys to string
values (real metadata dictionaries have pairwise-distinct keys). -/
abbrev Metadata : Type := List (String × String)

/-- Modelled from the spec: the `ProcessingReport` counters — a global
processed count plus per-filter-name added/changed/removed counters
(spec §4.3). -/
structure ProcessingReport where
  counter_number_processed : Nat
  counter_added_field : String → Nat
  counter_changed_field : String → Nat
  counter_removed_spectrums : String → Nat

/-- Increment a per-filter-name counter at one name. -/
def counterInc (f : String → Nat) (k : String) : String → Nat :=
  fun g => if g = k then f g + 1 else f g

/-- One step of the metadata diff of `add_to_report`: a key absent from
the old metadata counts as added, a key present with a different value
counts as changed, otherwise nothing is counted. -/
def diffStep (fname : String) (before : Metadata) (r : ProcessingReport)
    (kv : String × String) : ProcessingReport :=
  match List.lookup kv.1 before with
  | none => { r with counter_added_field := counterInc r.counter_added_field fname }
  | some w =>
    if w ≠ kv.2 then
      { r with counter_changed_field := counterInc r.counter_changed_field fname }
    else r

/-- Modelled from the spec: `ProcessingReport.add_to_report` —
increments the processed counter; when the filter removed the spectrum
(`after = none`) it increments only that filter's removed counter; else
it walks the new metadata, counting added and changed keys for that
filter (spec §4.3). -/
def add_to_report (r : ProcessingReport) (before : Metadata)
    (after : Option Metadata) (fname : String) : ProcessingReport :=
  let r1 := { r with counter_number_processed := r.counter_number_processed + 1 }
  match after with
  | none =>
    { r1 with counter_removed_spectrums :=
        counterInc r1.counter_removed_spectrums fname }
  | some a => a.foldl (diffStep fname before) r1

/-- Modelled from the spec: the keys "present in `after` but absent in
`before`" (spec §4.3), listed in `after` order. -/
def addedKeys (before a : Metadata) : List String :=
  (a.filter (fun kv => (List.lookup kv.1 before).isNone)).map Prod.fst

/-- Modelled from the spec: the keys "present in both with differing
values" (spec §4.3), listed in `after` order. -/
def changedKeys (before a : Metadata) : List String :=
  (a.filter (fun kv =>
    match List.lookup kv.1 before with
    | some w => w != kv.2
    | none => false)).map Prod.fst

/-- A concrete environment used to instantiate the theorems: the
identity canonicalizer, a one-row adduct table, and a fallback
interpreter that resolves nothing. -/
def demoEnv : ChemEnv where
  cleanAdduct := fun a => a
  knownAdducts := [⟨"[M+H]+", 2, 5⟩]
  get_multiplier_and_mass_from_adduct := fun _ => (none, none)
  is_valid_smiles := fun _ => true
  is_valid_inchi := fun _ => true
  is_valid_inchikey := fun _ => true
  convert_smiles_to_inchi := fun s => s
  convert_inchi_to_inchikey := fun s => s

/-- A concrete spectrum with a precursor m/z, a table-resolvable adduct
and an explicit charge. -/
def demoSpectrum : Spectrum where
  precursor_mz := some 100
  parent_mass := none
  charge := some 1
  ionmode := none
  adduct := some "[M+H]+"
  smiles := none
  inchi := none
  inchikey := none

/-- A concrete spectrum whose adduct resolves to nothing, with a
parent mass and a positive charge. -/
def demoSpectrumCharge : Spectrum where
  precursor_mz := some 100
  parent_mass := some 50
  charge := some 2
  ionmode := none
  adduct := none
  smiles := none
  inchi := none
  inchikey := none

/-- A processor with no filters configured. -/
def emptyProcessor : SpectrumProcessor where
  knownFilters := []
  customFilters := []

/-- A fresh report with all counters at zero. -/
def freshReport : ProcessingReport where
  counter_number_processed := 0
  counter_added_field := fun _ => 0
  counter_changed_field := fun _ => 0
  counter_removed_spectrums := fun _ => 0

/-- Concrete old metadata for the report theorems. -/
def demoMetaBefore : Metadata := [("charge", "+1"), ("pepmass", "100")]

/-- Concrete new metadata: `charge` changed, `precursor_mz` added,
`pepmass` untouched. -/
def demoMetaAfter : Metadata :=
  [("charge", "1"), ("pepmass", "100"), ("precursor_mz", "100")]

/-- C10: on a `None` input spectrum, `derive_parent_mass_from_precursor_mz`,
`derive_precursor_mz_from_parent_mass` and `require_annotation` each
return `None` immediately, for every environment and every
`estimate_from_adduct` setting. -/
theorem none_input_returns_none (env : ChemEnv) (est : Bool) :
    derive_parent_mass_from_precursor_mz env none est = none
    ∧ derive_precursor_mz_from_parent_mass env none = none
    ∧ require_annotation env none = none :=
  ⟨rfl, rfl, rfl⟩

/-- C5: the effective charge used by the mass derivations is the
spectrum's charge field when present and nonzero; otherwise +1 when the
ionmode is "positive", -1 when it is "negative", and 0 otherwise. -/
theorem effective_charge_resolution (s : Spectrum) :
    _get_charge s =
      if s.charge.getD 0 ≠ 0 then s.charge.getD 0
      else if s.ionmode = some "positive" then 1
      else if s.ionmode = some "negative" then -1
      else 0 := by
  rcases s with ⟨pmz, pm, ch, im, ad, sm, ii, ik⟩
  cases ch with
  | none => simp [_get_charge, _is_valid_charge]
  | some c =>
    by_cases hc : c = 0 <;>
      simp [_get_charge, _is_valid_charge, hc]

/-- C2: on a non-`None` spectrum, `require_annotation` evaluates exactly
the five checks — smiles validity, inchikey validity, inchi validity,
inchikey-vs-inchi 14-character prefix agreement, inchikey-vs-smiles
14-character prefix agreement — in that order, short-circuiting to
`None` at the first failure, and returns the (non-`None`) spectrum when
all five pass. -/
theorem require_annotation_five_checks (env : ChemEnv) (sp : Spectrum) :
    require_annotation env (some sp) =
      (if smilesValid env sp then
        if inchikeyValid env sp then
          if inchiValid env sp then
            if inchikeyMatchesInchi env sp then
              if inchikeyMatchesSmiles env sp then some sp else none
            else none
          else none
        else none
      else none)
    ∧ (( require_annotation env (some sp)).isSome = true ↔
        (smilesValid env sp ∧ inchikeyValid env sp ∧ inchiValid env sp
          ∧ inchikeyMatchesInchi env sp ∧ inchikeyMatchesSmiles env sp)) := by
  constructor
  · simp only [ require_annotation, smilesValid, inchikeyValid, inchiValid,
      inchikeyMatchesInchi, inchikeyMatchesSmiles, Bool.not_eq_true']
    by_cases h1 : validOpt env.is_valid_smiles sp.smiles <;>
      by_cases h2 : validOpt env.is_valid_inchikey sp.inchikey <;>
        by_cases h3 : validOpt env.is_valid_inchi sp.inchi <;>
          simp [h1, h2, h3]
  · simp only [ require_annotation, smilesValid, inchikeyValid, inchiValid,
      inchikeyMatchesInchi, inchikeyMatchesSmiles]
    by_cases h1 : validOpt env.is_valid_smiles sp.smiles <;>
      by_cases h2 : validOpt env.is_valid_inchikey sp.inchikey <;>
        by_cases h3 : validOpt env.is_valid_inchi sp.inchi <;>
          by_cases h4 : (sp.inchikey.getD "").take 14
              == (env.convert_inchi_to_inchikey (sp.inchi.getD "")).take 14 <;>
            simp [h1, h2, h3, h4]

lemma derive_parent_mass_adduct_hit (env : ChemEnv) (s : Spectrum) (p m c : ℚ)
    (hp : s.precursor_mz = some p)
    (hres : _get_multiplier_and_correction_mass_from_adduct env s.adduct
      = (some m, some c)) :
    derive_parent_mass_from_precursor_mz env (some s) true
      = some ((p - c) / m) := by
  simp [derive_parent_mass_from_precursor_mz, hp, hres]

lemma derive_parent_mass_charge_case (env : ChemEnv) (s : Spectrum) (p : ℚ)
    (est : Bool) (hp : s.precursor_mz = some p)
    (hno : est = false
      ∨ (_get_multiplier_and_correction_mass_from_adduct env s.adduct).1 = none
      ∨ (_get_multiplier_and_correction_mass_from_adduct env s.adduct).2 = none) :
    derive_parent_mass_from_precursor_mz env (some s) est =
      if _get_charge s = 0 then none
      else some (p * |((_get_charge s : Int) : ℚ)|
        - PROTON_MASS * ((_get_charge s : Int) : ℚ)) := by
  rcases hmc : _get_multiplier_and_correction_mass_from_adduct env s.adduct
    with ⟨m1, m2⟩
  rw [hmc] at hno
  by_cases hch : _get_charge s = 0
  · rcases hno with h | h | h
    · subst h
      simp [derive_parent_mass_from_precursor_mz, hp, _is_valid_charge, hch]
    · simp only at h
      subst h
      cases est <;> cases m2 <;>
        simp [derive_parent_mass_from_precursor_mz, hp, hmc, _is_valid_charge, hch]
    · simp only at h
      subst h
      cases est <;> cases m1 <;>
        simp [derive_parent_mass_from_precursor_mz, hp, hmc, _is_valid_charge, hch]
  · rcases hno with h | h | h
    · subst h
      simp [derive_parent_mass_from_precursor_mz, hp, _is_valid_charge, hch]
    · simp only at h
      subst h
      cases est <;> cases m2 <;>
        simp [derive_parent_mass_from_precursor_mz, hp, hmc, _is_valid_charge, hch]
    · simp only at h
      subst h
      cases est <;> cases m1 <;>
        simp [derive_parent_mass_from_precursor_mz, hp, hmc, _is_valid_charge, hch]

lemma derive_precursor_mz_adduct_hit (env : ChemEnv) (s : Spectrum) (pm m c : ℚ)
    (hpm : s.parent_mass = some pm)
    (hres : _get_multiplier_and_correction_mass_from_adduct env s.adduct
      = (some m, some c)) :
    derive_precursor_mz_from_parent_mass env (some s) = some (pm * m + c) := by
  simp [derive_precursor_mz_from_parent_mass, hpm, hres]

lemma derive_precursor_mz_charge_case (env : ChemEnv) (s : Spectrum) (pm : ℚ)
    (hpm : s.parent_mass = some pm)
    (hno : (_get_multiplier_and_correction_mass_from_adduct env s.adduct).1 = none
      ∨ (_get_multiplier_and_correction_mass_from_adduct env s.adduct).2 = none) :
    derive_precursor_mz_from_parent_mass env (some s) =
      if _get_charge s = 0 then none
      else some ((pm + PROTON_MASS * ((_get_charge s : Int) : ℚ))
        / |((_get_charge s : Int) : ℚ)|) := by
  rcases hmc : _get_multiplier_and_correction_mass_from_adduct env s.adduct
    with ⟨m1, m2⟩
  rw [hmc] at hno
  by_cases hch : _get_charge s = 0
  · rcases hno with h | h <;> simp only at h <;> subst h
    · cases m2 <;>
        simp [derive_precursor_mz_from_parent_mass, hpm, hmc, _is_valid_charge, hch]
    · cases m1 <;>
        simp [derive_precursor_mz_from_parent_mass, hpm, hmc, _is_valid_charge, hch]
  · rcases hno with h | h <;> simp only at h <;> subst h
    · cases m2 <;>
        simp [derive_precursor_mz_from_parent_mass, hpm, hmc, _is_valid_charge, hch]
    · cases m1 <;>
        simp [derive_precursor_mz_from_parent_mass, hpm, hmc, _is_valid_charge, hch]

/-- C3: when `estimate_from_adduct` is set and the spectrum's adduct
resolves to a `(multiplier, correction_mass)` pair, the derived parent
mass is `(precursor_mz - correction_mass) / multiplier`, returned
immediately — and the result is the same for every charge and ionmode
value, so the charge-based path is never used. -/
theorem adduct_path_precedence (env : ChemEnv) (s : Spectrum) (p m c : ℚ)
    (hp : s.precursor_mz = some p)
    (hres : _get_multiplier_and_correction_mass_from_adduct env s.adduct
      = (some m, some c)) :
    derive_parent_mass_from_precursor_mz env (some s) true = some ((p - c) / m)
    ∧ ∀ (ch : Option Int) (im : Option String),
        derive_parent_mass_from_precursor_mz env
          (some { s with charge := ch, ionmode := im }) true
          = some ((p - c) / m) := by
  refine ⟨derive_parent_mass_adduct_hit env s p m c hp hres, fun ch im => ?_⟩
  exact derive_parent_mass_adduct_hit env { s with charge := ch, ionmode := im }
    p m c hp hres

/-- C4: when the adduct path does not apply (`estimate_from_adduct`
unset, or the adduct does not yield both a multiplier and a correction
mass), the derived parent mass is
`precursor_mz * |charge| - charge * PROTON_MASS` for a nonzero effective
charge, and `None` for a zero effective charge. -/
theorem charge_fallback_path (env : ChemEnv) (s : Spectrum) (p : ℚ) (est : Bool)
    (hp : s.precursor_mz = some p)
    (hno : est = false
      ∨ (_get_multiplier_and_correction_mass_from_adduct env s.adduct).1 = none
      ∨ (_get_multiplier_and_correction_mass_from_adduct env s.adduct).2 = none) :
    derive_parent_mass_from_precursor_mz env (some s) est =
      if _get_charge s = 0 then none
      else some (p * |((_get_charge s : Int) : ℚ)|
        - ((_get_charge s : Int) : ℚ) * PROTON_MASS) := by
  rw [derive_parent_mass_charge_case env s p est hp hno]
  by_cases hch : _get_charge s = 0 <;> simp [hch, mul_comm]

/-- C6: `derive_precursor_mz_from_parent_mass` returns `None` when the
parent mass is missing; otherwise it returns
`parent_mass * multiplier + correction_mass` when the adduct resolves,
else `(parent_mass + charge * PROTON_MASS) / |charge|` for a nonzero
effective charge, and `None` for a zero effective charge — never
raising in any of these cases. -/
theorem derive_precursor_mz_cases (env : ChemEnv) (s : Spectrum) (pm m c : ℚ) :
    (s.parent_mass = none → derive_precursor_mz_from_parent_mass env (some s) = none)
    ∧ (s.parent_mass = some pm →
        (_get_multiplier_and_correction_mass_from_adduct env s.adduct
            = (some m, some c) →
          derive_precursor_mz_from_parent_mass env (some s) = some (pm * m + c))
        ∧ (((_get_multiplier_and_correction_mass_from_adduct env s.adduct).1 = none
            ∨ (_get_multiplier_and_correction_mass_from_adduct env s.adduct).2 = none) →
          derive_precursor_mz_from_parent_mass env (some s) =
            if _get_charge s = 0 then none
            else some ((pm + ((_get_charge s : Int) : ℚ) * PROTON_MASS)
              / |((_get_charge s : Int) : ℚ)|))) := by
  refine ⟨fun hnone => ?_, fun hpm =>
    ⟨derive_precursor_mz_adduct_hit env s pm m c hpm, fun hno => ?_⟩⟩
  · simp [derive_precursor_mz_from_parent_mass, hnone]
  · rw [derive_precursor_mz_charge_case env s pm hpm hno]
    by_cases hch : _get_charge s = 0 <;> simp [hch, mul_comm]

/-- C1: starting from a spectrum with a precursor m/z, when the same
parameters resolve on both sides — either `estimate_from_adduct` is set
and the adduct resolves (with a nonzero multiplier), or the adduct
resolves to nothing and the effective charge is nonzero — deriving the
parent mass and then deriving the precursor m/z back from it returns
the original precursor m/z exactly, over the rationals. -/
theorem mass_derivation_roundtrip (env : ChemEnv) (s : Spectrum) (p : ℚ)
    (est : Bool) (hp : s.precursor_mz = some p)
    (hsame : (est = true ∧ ∃ m c : ℚ,
        _get_multiplier_and_correction_mass_from_adduct env s.adduct
          = (some m, some c) ∧ m ≠ 0)
      ∨ (((_get_multiplier_and_correction_mass_from_adduct env s.adduct).1 = none
          ∨ (_get_multiplier_and_correction_mass_from_adduct env s.adduct).2 = none)
        ∧ _get_charge s ≠ 0)) :
    ∃ pm : ℚ, derive_parent_mass_from_precursor_mz env (some s) est = some pm
      ∧ derive_precursor_mz_from_parent_mass env (some (setParentMass s pm))
          = some p := by
  rcases hsame with ⟨hest, m, c, hres, hm⟩ | ⟨hno, hch⟩
  · subst hest
    refine ⟨(p - c) / m, derive_parent_mass_adduct_hit env s p m c hp hres, ?_⟩
    rw [derive_precursor_mz_adduct_hit env (setParentMass s ((p - c) / m))
      ((p - c) / m) m c rfl hres]
    congr 1
    field_simp
  · have habs : |((_get_charge s : Int) : ℚ)| ≠ 0 := by
      simpa using hch
    refine ⟨p * |((_get_charge s : Int) : ℚ)|
      - PROTON_MASS * ((_get_charge s : Int) : ℚ), ?_, ?_⟩
    · rw [derive_parent_mass_charge_case env s p est hp (Or.inr hno)]
      simp [hch]
    · rw [derive_precursor_mz_charge_case env
        (setParentMass s (p * |((_get_charge s : Int) : ℚ)|
          - PROTON_MASS * ((_get_charge s : Int) : ℚ))) _ rfl hno]
      have hgc : _get_charge (setParentMass s (p * |((_get_charge s : Int) : ℚ)|
          - PROTON_MASS * ((_get_charge s : Int) : ℚ))) = _get_charge s := rfl
      rw [hgc]
      have hval : (p * |((_get_charge s : Int) : ℚ)|
          - PROTON_MASS * ((_get_charge s : Int) : ℚ)
          + PROTON_MASS * ((_get_charge s : Int) : ℚ))
          / |((_get_charge s : Int) : ℚ)| = p := by
        rw [sub_add_cancel, mul_div_assoc, div_self habs, mul_one]
      simp [hch, hval]

/-- C7: `process_spectrum` on a processor whose filter list is empty
fails with the no-filters-configured error, and in particular never
returns a value (`None` or otherwise). -/
theorem process_spectrum_empty_pipeline (p : SpectrumProcessor) (s : Spectrum)
    (h : p.filters = []) :
    process_spectrum p s = Except.error PipelineError.noFiltersConfigured
    ∧ ∀ r : Option Spectrum, process_spectrum p s ≠ Except.ok r := by
  have he : p.filters.isEmpty = true := by rw [h]; rfl
  refine ⟨?_, fun r => ?_⟩
  · simp [process_spectrum, he]
  · simp [process_spectrum, he]

lemma applyActions_customFilters (acts : List AddAction) :
    ∀ p : SpectrumProcessor,
      (applyActions p acts).customFilters = p.customFilters ++ customsOf acts := by
  induction acts with
  | nil => intro p; simp [applyActions, customsOf]
  | cons a as ih =>
    intro p
    cases a with
    | known f =>
      rw [show applyActions p (AddAction.known f :: as)
          = applyActions (add_known_filter p f) as from rfl, ih]
      simp [customsOf, add_known_filter]
    | custom f =>
      rw [show applyActions p (AddAction.custom f :: as)
          = applyActions (add_custom_filter p f) as from rfl, ih]
      simp [customsOf, add_custom_filter]

/-- C8: whatever interleaving of known and custom filter additions is
applied, the executed filter sequence consists of the known filters
first and then every custom filter, the custom filters appearing after
all known filters and in exactly the order in which they were added. -/
theorem custom_filters_run_last (p : SpectrumProcessor) (acts : List AddAction) :
    (applyActions p acts).filters =
      (applyActions p acts).knownFilters.map (fun f => BoundFilter.mk f.name f.fn)
        ++ p.customFilters ++ customsOf acts := by
  rw [SpectrumProcessor.filters, applyActions_customFilters acts p,
    List.append_assoc]

lemma foldl_diffStep_spec (fname : String) (before : Metadata) :
    ∀ (a : Metadata) (r : ProcessingReport),
      ((a.foldl (diffStep fname before) r).counter_number_processed
          = r.counter_number_processed)
      ∧ ((a.foldl (diffStep fname before) r).counter_removed_spectrums
          = r.counter_removed_spectrums)
      ∧ (∀ g, (a.foldl (diffStep fname before) r).counter_added_field g
          = if g = fname
            then r.counter_added_field g + (addedKeys before a).length
            else r.counter_added_field g)
      ∧ (∀ g, (a.foldl (diffStep fname before) r).counter_changed_field g
          = if g = fname
            then r.counter_changed_field g + (changedKeys before a).length
            else r.counter_changed_field g) := by
  intro a
  induction a with
  | nil => intro r; simp [addedKeys, changedKeys]
  | cons kv rest ih =>
    intro r
    have hstep : (kv :: rest).foldl (diffStep fname before) r
        = rest.foldl (diffStep fname before) (diffStep fname before r kv) := rfl
    obtain ⟨ihp, ihr, iha, ihc⟩ := ih (diffStep fname before r kv)
    rcases hl : List.lookup kv.1 before with _ | w
    · have hd : diffStep fname before r kv
          = { r with counter_added_field := counterInc r.counter_added_field fname } := by
        simp [diffStep, hl]
      have hak : addedKeys before (kv :: rest) = kv.1 :: addedKeys before rest := by
        simp [addedKeys, hl]
      have hck : changedKeys before (kv :: rest) = changedKeys before rest := by
        simp [changedKeys, hl]
      rw [hstep]
      refine ⟨?_, ?_, ?_, ?_⟩
      · rw [ihp, hd]
      · rw [ihr, hd]
      · intro g
        rw [iha g, hd, hak]
        by_cases hg : g = fname <;> simp [hg, counterInc]
        all_goals omega
      · intro g
        rw [ihc g, hd, hck]
    · by_cases hw : w = kv.2
      · have hd : diffStep fname before r kv = r := by
          simp [diffStep, hl, hw]
        have hak : addedKeys before (kv :: rest) = addedKeys before rest := by
          simp [addedKeys, hl]
        have hck : changedKeys before (kv :: rest) = changedKeys before rest := by
          simp [changedKeys, hl, hw]
        rw [hd] at ihp ihr iha ihc
        rw [hstep, hd]
        refine ⟨ihp, ihr, ?_, ?_⟩
        · intro g
          rw [iha g, hak]
        · intro g
          rw [ihc g, hck]
      · have hd : diffStep fname before r kv
            = { r with counter_changed_field := counterInc r.counter_changed_field fname } := by
          simp [diffStep, hl, hw]
        have hak : addedKeys before (kv :: rest) = addedKeys before rest := by
          simp [addedKeys, hl]
        have hck : changedKeys before (kv :: rest) = kv.1 :: changedKeys before rest := by
          simp [changedKeys, hl, hw]
        rw [hstep]
        refine ⟨?_, ?_, ?_, ?_⟩
        · rw [ihp, hd]
        · rw [ihr, hd]
        · intro g
          rw [iha g, hd, hak]
        · intro g
          rw [ihc g, hd, hck]
          by_cases hg : g = fname <;> simp [hg, counterInc]
          all_goals omega

/-- C9: `add_to_report` increments the global processed counter in every
case; on a removed spectrum (`after = None`) it increments only that
filter's removed counter; otherwise it leaves the removed counters
untouched and increments that filter's added-field counter once per key
present in `after` but absent in `before` and its changed-field counter
once per key present in both with differing values, while the counters
of every other filter name are unchanged. -/
theorem add_to_report_correct (r : ProcessingReport) (before a : Metadata)
    (fname g : String) :
    ((add_to_report r before none fname).counter_number_processed
        = r.counter_number_processed + 1)
    ∧ ((add_to_report r before (some a) fname).counter_number_processed
        = r.counter_number_processed + 1)
    ∧ ((add_to_report r before none fname).counter_removed_spectrums fname
        = r.counter_removed_spectrums fname + 1)
    ∧ ((add_to_report r before none fname).counter_added_field
        = r.counter_added_field)
    ∧ ((add_to_report r before none fname).counter_changed_field
        = r.counter_changed_field)
    ∧ ((add_to_report r before (some a) fname).counter_removed_spectrums
        = r.counter_removed_spectrums)
    ∧ ((add_to_report r before (some a) fname).counter_added_field fname
        = r.counter_added_field fname + (addedKeys before a).length)
    ∧ ((add_to_report r before (some a) fname).counter_changed_field fname
        = r.counter_changed_field fname + (changedKeys before a).length)
    ∧ (g ≠ fname →
        (add_to_report r before (some a) fname).counter_added_field g
            = r.counter_added_field g
        ∧ (add_to_report r before (some a) fname).counter_changed_field g
            = r.counter_changed_field g
        ∧ (add_to_report r before none fname).counter_removed_spectrums g
            = r.counter_removed_spectrums g) := by
  obtain ⟨hp, hr, ha, hc⟩ := foldl_diffStep_spec fname before a
    { r with counter_number_processed := r.counter_number_processed + 1 }
  refine ⟨rfl, hp, ?_, rfl, rfl, hr, ?_, ?_, fun hg => ⟨?_, ?_, ?_⟩⟩
  · simp [add_to_report, counterInc]
  · rw [show (add_to_report r before (some a) fname).counter_added_field
        = (a.foldl (diffStep fname before)
            { r with counter_number_processed := r.counter_number_processed + 1 }).counter_added_field
      from rfl, ha fname]
    simp
  · rw [show (add_to_report r before (some a) fname).counter_changed_field
        = (a.foldl (diffStep fname before)
            { r with counter_number_processed := r.counter_number_processed + 1 }).counter_changed_field
      from rfl, hc fname]
    simp
  · rw [show (add_to_report r before (some a) fname).counter_added_field
        = (a.foldl (diffStep fname before)
            { r with counter_number_processed := r.counter_number_processed + 1 }).counter_added_field
      from rfl, ha g]
    simp [hg]
  · rw [show (add_to_report r before (some a) fname).counter_changed_field
        = (a.foldl (diffStep fname before)
            { r with counter_number_processed := r.counter_number_processed + 1 }).counter_changed_field
      from rfl, hc g]
    simp [hg]
  · simp [add_to_report, counterInc, hg]

/-- Witness for C1: the round trip at a concrete spectrum whose adduct
resolves in the demo table (multiplier 2, correction mass 5). -/
theorem mass_derivation_roundtrip_witness :
    ∃ pm : ℚ,
      derive_parent_mass_from_precursor_mz demoEnv (some demoSpectrum) true
        = some pm
      ∧ derive_precursor_mz_from_parent_mass demoEnv
          (some (setParentMass demoSpectrum pm)) = some 100 :=
  mass_derivation_roundtrip demoEnv demoSpectrum 100 true rfl
    (Or.inl ⟨rfl, 2, 5, by decide, by norm_num⟩)

/-- Witness for C3: the adduct path at the concrete spectrum gives
`(100 - 5) / 2`. -/
theorem adduct_path_precedence_witness :
    derive_parent_mass_from_precursor_mz demoEnv (some demoSpectrum) true
      = some ((100 - 5) / 2) :=
  (adduct_path_precedence demoEnv demoSpectrum 100 2 5 rfl (by decide)).1

/-- Witness for C4: with `estimate_from_adduct` unset, the concrete
spectrum takes the charge path. -/
theorem charge_fallback_path_witness :
    derive_parent_mass_from_precursor_mz demoEnv (some demoSpectrum) false =
      if _get_charge demoSpectrum = 0 then none
      else some (100 * |((_get_charge demoSpectrum : Int) : ℚ)|
        - ((_get_charge demoSpectrum : Int) : ℚ) * PROTON_MASS) :=
  charge_fallback_path demoEnv demoSpectrum 100 false rfl (Or.inl rfl)

/-- Witness for C6: the charge fallback of the precursor-m/z derivation
at a concrete spectrum whose adduct resolves to nothing. -/
theorem derive_precursor_mz_cases_witness :
    derive_precursor_mz_from_parent_mass demoEnv (some demoSpectrumCharge) =
      if _get_charge demoSpectrumCharge = 0 then none
      else some ((50 + ((_get_charge demoSpectrumCharge : Int) : ℚ) * PROTON_MASS)
        / |((_get_charge demoSpectrumCharge : Int) : ℚ)|) :=
  ((derive_precursor_mz_cases demoEnv demoSpectrumCharge 50 0 0).2 rfl).2
    (Or.inl rfl)

/-- Witness for C7: a concrete empty processor errors out. -/
theorem process_spectrum_empty_pipeline_witness :
    process_spectrum emptyProcessor demoSpectrum
      = Except.error PipelineError.noFiltersConfigured :=
  (process_spectrum_empty_pipeline emptyProcessor demoSpectrum rfl).1

/-- Witness for C9: on concrete metadata (one changed key, one added
key) the counters of a different filter name are untouched. -/
theorem add_to_report_correct_witness :
    (add_to_report freshReport demoMetaBefore (some demoMetaAfter)
        "make_charge_int").counter_added_field "derive_ionmode"
      = freshReport.counter_added_field "derive_ionmode"
    ∧ (add_to_report freshReport demoMetaBefore (some demoMetaAfter)
        "make_charge_int").counter_changed_field "derive_ionmode"
      = freshReport.counter_changed_field "derive_ionmode" :=
  ⟨((add_to_report_correct freshReport demoMetaBefore demoMetaAfter
      "make_charge_int" "derive_ionmode").2.2.2.2.2.2.2.2 (by decide)).1,
   ((add_to_report_correct freshReport demoMetaBefore demoMetaAfter
      "make_charge_int" "derive_ionmode").2.2.2.2.2.2.2.2 (by decide)).2.1⟩

end Matchms
